import Mathlib

/-!
Verification development for the ofensivaria telegram bot
(`ofensivaria/bot.py` and `ofensivaria/commands.py`).

The Python code is shallowly embedded: message dictionaries become a
`Msg` structure, handler return values (False / None / str / bytes /
dict) become the inductive `RVal`, the three response decorators become
pure post-transformations on `RVal`, the matcher
(`Command.can_respond`, `__validate_slash_command`, `__validate_regex`)
becomes explicit state-passing functions returning
`Except ValidationException (Bool × Msg)` (exceptions become `Except`,
mutation of the message dict becomes returning an updated `Msg`), and
the dispatcher (`TelegramBot.process_update`, `get_updates`) becomes a
transition function on a `BotState` that also emits a trace of events.

Python regular expressions used by the code (the combined slash-command
expression, the bracketed-parameter expression `\[(\w+)\]`, and the
either-or expression `(.+?)\sou\s(.+?)\?+$`) are embedded as concrete
scanning functions implementing the same leftmost / lazy / word-boundary
semantics on the character list of the text.  `\w` and `\s` are modelled
at ASCII granularity (`Char.isAlphanum`, `Char.isWhitespace`), which
coincides with Python on all texts the registered commands handle.
-/

namespace Ofensivaria

/-- A telegram message dictionary, restricted to the keys the core
engine reads or writes: `text`, `message_id`, `chat.id`, and the three
matcher-written keys `command`, `args`, `result`.  `none` models the
key being absent. -/
structure Msg where
  text : Option String
  message_id : Option Nat
  chat_id : Nat
  command : Option String
  args : Option (List (String × String))
  result : Option (List String)
deriving DecidableEq, Repr

/-- A handler response dictionary.  The only keys the send path and the
decorators ever touch are `answer`, `needs_reply`, `needs_preview` and
`markdown`; `none` models the key being absent (the send path reads
flags with `dict.get(key, False)`). -/
structure PyDict where
  answer : Option String
  needs_reply : Option Bool
  needs_preview : Option Bool
  markdown : Option Bool
deriving DecidableEq, Repr

/-- A handler return value: Python `False`, `None`, a `str`, a `bytes`
(carried as its utf-8 decoding, which is what the code immediately does
with it), or a response dictionary. -/
inductive RVal where
  | vFalse
  | vNone
  | vStr (s : String)
  | vBytes (s : String)
  | vDict (d : PyDict)
deriving DecidableEq, Repr

/-- Python truthiness of a handler return value: `False` and `None` are
falsy, strings and bytes are truthy iff non-empty, a dict is truthy iff
it has at least one key. -/
def truthy : RVal → Bool
  | .vFalse => false
  | .vNone => false
  | .vStr s => s ≠ ""
  | .vBytes s => s ≠ ""
  | .vDict d =>
      d.answer.isSome || d.needs_reply.isSome ||
      d.needs_preview.isSome || d.markdown.isSome

/-- The `reply` decorator (commands.py lines 25-37): on a truthy result,
a dict gets `needs_reply = True`, a bare `str` or `bytes` is wrapped
into `dict(answer=r, needs_reply=True)` (bytes decoded as utf-8). -/
def deco_reply (r : RVal) : RVal :=
  if truthy r then
    match r with
    | .vDict d => .vDict { d with needs_reply := some true }
    | .vStr s => .vDict ⟨some s, some true, none, none⟩
    | .vBytes s => .vDict ⟨some s, some true, none, none⟩
    | r2 => r2
  else r

/-- The `preview` decorator (commands.py lines 40-50): on a truthy
result, a dict gets `needs_preview = True`, a bare `str` is wrapped into
`dict(answer=r, needs_preview=True)`.  There is no `bytes` branch: a
bytes result passes through unchanged. -/
def deco_preview (r : RVal) : RVal :=
  if truthy r then
    match r with
    | .vDict d => .vDict { d with needs_preview := some true }
    | .vStr s => .vDict ⟨some s, none, some true, none⟩
    | r2 => r2
  else r

/-- The `markdown` decorator (commands.py lines 53-63): on a truthy
result, a dict gets `markdown = True`, a bare `str` is wrapped into
`dict(answer=r, markdown=True)`.  There is no `bytes` branch: a bytes
result passes through unchanged. -/
def deco_markdown (r : RVal) : RVal :=
  if truthy r then
    match r with
    | .vDict d => .vDict { d with markdown := some true }
    | .vStr s => .vDict ⟨some s, none, none, some true⟩
    | r2 => r2
  else r

/-- The exception raised by `__validate_slash_command` on an arity
mismatch (commands.py lines 20-22); it carries a user-facing message. -/
structure ValidationException where
  message : String
deriving DecidableEq, Repr

/-- Accumulator scan behind `pysplit`: collect non-whitespace runs. -/
def pysplitGo : List Char → List Char → List String
  | acc, [] => if acc.isEmpty then [] else [String.mk acc]
  | acc, c :: cs =>
      if c.isWhitespace then
        if acc.isEmpty then pysplitGo [] cs
        else String.mk acc :: pysplitGo [] cs
      else pysplitGo (acc ++ [c]) cs

/-- Python `str.split()` with no argument: split on runs of whitespace,
discarding empty pieces. -/
def pysplit (s : String) : List String :=
  pysplitGo [] s.data

/-- Python `" ".join(args)`. -/
def spaceJoin : List String → String
  | [] => ""
  | [x] => x
  | x :: xs => x ++ " " ++ spaceJoin xs

/-- Python `s.lower()` (at the character level). -/
def pyLower (s : String) : String :=
  String.mk (s.data.map Char.toLower)

/-- Python `c.split(' ')[0]`: the prefix of `c` up to the first space. -/
def firstSpaceToken (c : String) : String :=
  String.mk (c.data.takeWhile (fun ch => ch ≠ ' '))

/-- Python `s.replace("/", "")`: remove every slash. -/
def stripSlashes (s : String) : String :=
  String.mk (s.data.filter (fun ch => ch ≠ '/'))

/-- Insertion into a Python dict modelled as an association list:
re-inserting an existing key updates its value in place (keeping its
position), a new key is appended. -/
def dictInsert (k v : String) (l : List (String × String)) :
    List (String × String) :=
  if l.any (fun p => p.1 = k) then
    l.map (fun p => if p.1 = k then (k, v) else p)
  else l ++ [(k, v)]

/-- Python `dict(pairs)`: build a dict from a pair list, later
duplicates overwriting earlier ones. -/
def pyDictOf (pairs : List (String × String)) : List (String × String) :=
  pairs.foldl (fun acc p => dictInsert p.1 p.2 acc) []

/-- Python `d[k]` on a dict modelled as an association list, returning
`none` for a `KeyError`. -/
def dictGet (k : String) : List (String × String) → Option String
  | [] => none
  | (k2, v) :: rest => if k2 = k then some v else dictGet k rest

/-- The `_commands` dict built in `Command.__init__` (commands.py line
93): each invocation form is keyed by its first space-token with all
slashes removed. -/
def mkCommands (forms : List String) : List (String × String) :=
  pyDictOf (forms.map (fun c => (stripSlashes (firstSpaceToken c), c)))

/-- Python `\w` at ASCII granularity: alphanumerics and underscore. -/
def pyIsWord (c : Char) : Bool := c.isAlphanum || c = '_'

/-- Case-insensitive prefix stripping, used to model the `re.I` flag on
the combined slash-command expression: strips the alias from the front
of the character list if it matches up to case. -/
def stripPrefixCI : List Char → List Char → Option (List Char)
  | [], rest => some rest
  | _ :: _, [] => none
  | a :: arest, c :: crest =>
      if a.toLower = c.toLower then stripPrefixCI arest crest else none

/-- The `\s?(.*)?$` tail of the combined slash-command expression:
optionally consume one leading whitespace character, then `.*` (which
never matches a newline) anchored by `$` (which matches at the end of
the string or just before one trailing newline). -/
def group2Of (rest2 : List Char) : Option String :=
  let r := match rest2 with
    | c :: cs => if c.isWhitespace then cs else rest2
    | [] => ([] : List Char)
  if '\n' ∈ r then
    match r.getLast? with
    | some '\n' => if '\n' ∈ r.dropLast then none
                   else some (String.mk r.dropLast)
    | _ => none
  else some (String.mk r)

/-- The alternation `(\balias1\b|\balias2\b|...)` of the combined
slash-command expression, tried on the characters following the leading
slash: the first alias that is a case-insensitive prefix followed by a
word boundary wins; the matched text keeps the original casing. -/
def matchAliases : List String → List Char → Option (String × String)
  | [], _ => none
  | a :: rest, chars =>
      match stripPrefixCI a.data chars with
      | some rest2 =>
          if (match rest2 with | [] => true | c :: _ => !pyIsWord c) then
            match group2Of rest2 with
            | some g2 => some (String.mk (chars.take a.data.length), g2)
            | none => matchAliases rest chars
          else matchAliases rest chars
      | none => matchAliases rest chars

/-- `self._slash_re.findall(text)` (commands.py lines 94-95, 107): the
expression `^\/(alias|...)\s?(.*)?$` compiled with `re.I`.  Anchored at
the start, so there is at most one match; the two groups are the
matched alias text and the trailing argument text. -/
def slashFindall (aliases : List String) (text : String) :
    Option (String × String) :=
  match text.data with
  | '/' :: chars => matchAliases aliases chars
  | _ => none

/-- Maximal run of word characters at the front of a character list,
together with the remainder. -/
def wordRun : List Char → List Char × List Char
  | [] => ([], [])
  | c :: cs =>
      if pyIsWord c then ((c :: (wordRun cs).1), (wordRun cs).2)
      else ([], c :: cs)

/-- `self._slash_args_re.findall(full_command)` (commands.py lines 96,
122): all matches of `\[(\w+)\]`, i.e. a bracketed non-empty word run;
on a failed match the scan resumes one character later.  After a
successful match the scan continues from just after the opening
bracket rather than after the closing one: this is equivalent to the
non-overlapping findall because the matched `name]` segment consists of
word characters and a closing bracket, none of which can open another
match. -/
def slashArgsGo : List Char → List String
  | [] => []
  | c :: cs =>
      if c = '[' then
        match wordRun cs with
        | (run@(_ :: _), ']' :: _) => String.mk run :: slashArgsGo cs
        | _ => slashArgsGo cs
      else slashArgsGo cs

/-- Parameter-name extraction from a full invocation form. -/
def slashArgsFindall (full_command : String) : List String :=
  slashArgsGo full_command.data

/-- The single-parameter collapsing step (commands.py lines 124-125):
if exactly one parameter is declared but several whitespace tokens were
supplied, rejoin them with single spaces. -/
def collapseArgs (command_args args : List String) : List String :=
  if command_args.length = 1 ∧ args.length > 1 then [spaceJoin args]
  else args

/-- `Command.__validate_slash_command` (commands.py lines 105-136).
The `commands` argument is the `_commands` dict; on the dead
`ValueError` branch: `findall` on a two-group expression always yields
pairs, so it is unreachable and not modelled.  A `KeyError` on the
alias lookup returns `False` before any message mutation; an arity
mismatch raises `ValidationException`; on success `args` and `command`
are written onto the message. -/
def validate_slash_command (commands : List (String × String))
    (required_params : Bool) (text : String) (msg : Msg) :
    Except ValidationException (Bool × Msg) :=
  match slashFindall (commands.map Prod.fst) text with
  | none => .ok (false, msg)
  | some (cmdtxt, argstr) =>
      let command := pyLower cmdtxt
      let args0 := pysplit argstr
      match dictGet command commands with
      | none => .ok (false, msg)
      | some full_command =>
          let command_args := slashArgsFindall full_command
          let args := collapseArgs command_args args0
          if required_params ∧ command_args ≠ [] ∧
              command_args.length ≠ args.length then
            .error ⟨"Wrong number of arguments " ++ full_command⟩
          else
            .ok (true, { msg with
                           args := some (pyDictOf (command_args.zip args)),
                           command := some command })

/-- `Command.__validate_regex` (commands.py lines 138-145): run the
descriptor's findall on the text; no match returns `False`, otherwise
the first match's group tuple is stored into the message's `result`
field.  The findall itself is the descriptor's compiled expression,
passed as a function. -/
def validate_regex (findall : String → List (List String))
    (text : String) (msg : Msg) : Bool × Msg :=
  match findall text with
  | [] => (false, msg)
  | r :: _ => (true, { msg with result := some r })

/-- A command handler descriptor: the class-level configuration of a
`Command` subclass.  `REGEX` is the compiled expression modelled as its
findall function; `SLASH_COMMAND` is the invocation-form list (the
`__init__` normalization of a single string into a one-element list is
applied by the caller of this model). -/
structure Descr where
  REGEX : Option (String → List (List String))
  SLASH_COMMAND : Option (List String)
  REQUIRED_PARAMS : Bool

/-- `Command.can_respond` (commands.py lines 147-154): a present regex
is consulted first and alone; otherwise a (truthy) slash-command list
is consulted; otherwise `False`. -/
def can_respond (d : Descr) (text : String) (msg : Msg) :
    Except ValidationException (Bool × Msg) :=
  match d.REGEX with
  | some findall => .ok (validate_regex findall text msg)
  | none =>
      match d.SLASH_COMMAND with
      | some forms =>
          if forms = [] then .ok (false, msg)
          else validate_slash_command (mkCommands forms) d.REQUIRED_PARAMS
                 text msg
      | none => .ok (false, msg)

/-- The arguments of one `bot.send_message` call made by
`Command.__send_message` (commands.py line 199): chat id, text, the
optional reply target, and the preview and markdown flags. -/
structure SendCall where
  chat_id : Nat
  text : String
  reply_to : Option Nat
  needs_preview : Bool
  markdown : Bool
deriving DecidableEq, Repr

/-- The dict-consuming tail of `Command.__send_message` (commands.py
lines 188-199): a missing `answer` key raises `ValueError`; the three
flags are read with a `False` default; the reply target is the
message's id only when `needs_reply` is set; the transport call happens
only under `if answer:` — a falsy answer sends nothing. -/
def sendFromDict (d : PyDict) (message : Msg) :
    Except String (Option SendCall) :=
  match d.answer with
  | none => .error "Command response must have an answer"
  | some answer =>
      let needs_reply := d.needs_reply.getD false
      let needs_preview := d.needs_preview.getD false
      let markdown := d.markdown.getD false
      let reply_id := if needs_reply then message.message_id else none
      if answer ≠ "" then
        .ok (some ⟨message.chat_id, answer, reply_id, needs_preview,
                   markdown⟩)
      else .ok none

/-- `Command.__send_message` (commands.py lines 174-199): a literal
`False` response sends nothing; a bare `str` or `bytes` is wrapped into
`dict(answer=...)`; anything else that is not a dict raises
`ValueError`; then the dict path runs.  The `Except String` error is a
propagating `ValueError`. -/
def py_send_message (command_response : RVal) (message : Msg) :
    Except String (Option SendCall) :=
  match command_response with
  | .vFalse => .ok none
  | .vStr s => sendFromDict ⟨some s, none, none, none⟩ message
  | .vBytes s => sendFromDict ⟨some s, none, none, none⟩ message
  | .vDict d => sendFromDict d message
  | .vNone => .error "Command response must be a dict"

/-- The text normalization at the top of `Command.process` (commands.py
lines 202-208): a missing `text` key becomes the empty string, a
present one has every no-break space (U+00A0) replaced by a regular
space (the utf-8 encode/decode round trip is the identity here); the
normalized text is written back onto the message. -/
def normalize_text (message : Msg) : String × Msg :=
  match message.text with
  | some t =>
      let t2 := String.mk
        (t.data.map (fun c => if c = Char.ofNat 160 then ' ' else c))
      (t2, { message with text := some t2 })
  | none => ("", { message with text := some "" })

/-- `Command.process` (commands.py lines 201-215): normalize the text,
ask `can_respond`, on a match run `respond` and feed its result to
`__send_message`; a `ValidationException` raised by either step is
caught and its message sent as the response.  The handler's `respond`
is passed in as a function (it differs per subclass). -/
def process (d : Descr)
    (respond : String → Msg → Except ValidationException RVal)
    (message : Msg) : Except String (Option SendCall) :=
  let norm := normalize_text message
  let text := norm.1
  let message1 := norm.2
  match can_respond d text message1 with
  | .error e => py_send_message (.vDict ⟨some e.message, none, none, none⟩)
                  message1
  | .ok (true, message2) =>
      match respond text message2 with
      | .error e =>
          py_send_message (.vDict ⟨some e.message, none, none, none⟩)
            message2
      | .ok response => py_send_message response message2
  | .ok (false, _) => .ok none

/-- The `EitherOr` tail `(.+?)\?+$`: at least one `?` then the end of
the string, or one trailing newline after the question marks. -/
def qmarksTail : List Char → Bool
  | [] => true
  | ['\n'] => true
  | '?' :: rest => qmarksTail rest
  | _ => false

/-- One-or-more question marks followed by the anchored end. -/
def qmarksEnd : List Char → Bool
  | '?' :: rest => qmarksTail rest
  | _ => false

/-- Lazy `(.+?)` before `\?+$`: the shortest non-empty newline-free
prefix whose remainder is question marks up to the end. -/
def tailMatchGo : List Char → List Char → Option (List Char)
  | _, [] => none
  | acc, c :: cs =>
      if c = '\n' then none
      else if qmarksEnd cs then some (acc ++ [c])
      else tailMatchGo (acc ++ [c]) cs

def tailMatch (l : List Char) : Option (List Char) := tailMatchGo [] l

/-- The separator `\sou\s` of the either-or expression followed by its
tail: one whitespace character, the literal `ou`, one whitespace
character, then the lazy second group. -/
def trySep : List Char → Option (List Char)
  | w1 :: 'o' :: 'u' :: w2 :: rest =>
      if w1.isWhitespace ∧ w2.isWhitespace then tailMatch rest else none
  | _ => none

/-- Lazy `(.+?)` for the first group: extend the newline-free first
group one character at a time, at each step trying the separator and
tail on the remainder. -/
def ouGo1 : List Char → List Char → Option (List Char × List Char)
  | _, [] => none
  | acc, c :: cs =>
      if c = '\n' then none
      else
        match trySep cs with
        | some g2 => some (acc ++ [c], g2)
        | none => ouGo1 (acc ++ [c]) cs

/-- Leftmost-match scan: try the anchored match at each start position
in order. -/
def eitherOrScan : List Char → Option (List Char × List Char)
  | [] => none
  | l@(_ :: rest) =>
      match ouGo1 [] l with
      | some r => some r
      | none => eitherOrScan rest

/-- `EitherOr.REGEX.findall(text)` (commands.py line 246): the
expression `(.+?)\sou\s(.+?)\?+$` with leftmost, lazy semantics.  The
`$` anchor means a successful match consumes the rest of the text, so
findall yields at most one group tuple. -/
def eitherOrFindall (text : String) : List (List String) :=
  match eitherOrScan text.data with
  | some (g1, g2) => [[String.mk g1, String.mk g2]]
  | none => []

/-- The `EitherOr` descriptor (commands.py lines 238-246): regex mode
only. -/
def eitherOrDescr : Descr := ⟨some eitherOrFindall, none, false⟩

/-- A `/convert [value] [symbol]` descriptor with arity enforced, as in
the claim scenario for arity validation (`ConvertCurrency`, commands.py
line 390, with `REQUIRED_PARAMS` set). -/
def convertDescr : Descr :=
  ⟨none, some ["/convert [value] [symbol]"], true⟩

/-- The `SquareMeme` descriptor (commands.py line 590). -/
def squareDescr : Descr := ⟨none, some ["/square [text]"], false⟩

/-- The `Ping` descriptor (commands.py line 221), after the
`__init__` normalization of the single string into a list. -/
def pingDescr : Descr := ⟨none, some ["/ping"], false⟩

/-- A concrete message used to instantiate claims. -/
def sampleMsg : Msg := ⟨some "hello", some 5, 42, none, none, none⟩

/-- One inbound update (bot.py line 154): its platform identifier and
an optional embedded message. -/
structure Update where
  update_id : Nat
  message : Option Msg
deriving DecidableEq, Repr

/-- Observable events of one `process_update` call, in order:
`storeAdd` is the `redis.sadd('bot:updates', id)` persist, `memAdd` is
the in-memory `self.__processed_status.add(id)`, `handlerRun i` marks
the invocation of the i-th registered command, and `send` stands for a
transport send performed inside a handler. -/
inductive Event where
  | storeAdd (id : Nat)
  | memAdd (id : Nat)
  | handlerRun (idx : Nat)
  | send (chat : Nat) (text : String)
deriving DecidableEq, Repr

/-- A registered command's `process` coroutine as the dispatcher sees
it: from the message it produces the events it emits and whether it
raised an exception (which `process_update` catches and logs). -/
def Handler : Type := Msg → List Event × Bool

/-- The dispatcher's mutable state: the in-memory
`self.__processed_status` set and the persisted `bot:updates` redis
set. -/
structure BotState where
  processed : Finset Nat
  redisUpdates : Finset Nat
deriving DecidableEq

/-- The handler loop of `process_update` (bot.py lines 164-169): every
registered command runs, in registration order, each inside its own
try/except, so the events of all of them are emitted regardless of
exceptions. -/
def run_handlers (commands : List Handler) (m : Msg) : List Event :=
  (commands.enum.map (fun p => Event.handlerRun p.1 :: (p.2 m).1)).flatten

/-- `TelegramBot.process_update` (bot.py lines 153-169): an already
processed identifier returns immediately with no state change and no
events; a fresh one is persisted, then marked in memory, and only then
are the handlers run (when a message is present). -/
def process_update (commands : List Handler) (st : BotState)
    (u : Update) : BotState × List Event :=
  if u.update_id ∈ st.processed then (st, [])
  else
    let st2 : BotState := ⟨insert u.update_id st.processed,
                           insert u.update_id st.redisUpdates⟩
    match u.message with
    | none => (st2, [Event.storeAdd u.update_id, Event.memAdd u.update_id])
    | some m =>
        (st2, Event.storeAdd u.update_id :: Event.memAdd u.update_id ::
              run_handlers commands m)

/-- The offset computation of `TelegramBot.get_updates` (bot.py lines
48-55): a non-empty processed set yields `max + 1`, an empty one sends
no offset at all. -/
def get_updates_offset (processed : Finset Nat) : Option Nat :=
  if h : processed.Nonempty then some (processed.max' h + 1) else none

/-- C1: an update whose identifier is already in the processed set is a
terminal no-op for `process_update` — unchanged state, no events — and
hence dispatching the same update twice in sequence runs handlers only
on the first dispatch, the second returning the first's state with no
events. -/
theorem claim_c1_at_most_once (commands : List Handler) (st : BotState)
    (u : Update) :
    (u.update_id ∈ st.processed → process_update commands st u = (st, [])) ∧
    (u.update_id ∉ st.processed →
      process_update commands (process_update commands st u).1 u =
        ((process_update commands st u).1, [])) := by
  have base : ∀ (st0 : BotState), u.update_id ∈ st0.processed →
      process_update commands st0 u = (st0, []) := by
    intro st0 h0
    simp [process_update, h0]
  refine ⟨base st, fun h => ?_⟩
  apply base
  cases hm : u.message <;> simp [process_update, h, hm]

theorem claim_c1_at_most_once_witness :
    process_update [] ⟨{5}, {5}⟩ ⟨5, none⟩ = (⟨{5}, {5}⟩, []) :=
  (claim_c1_at_most_once [] ⟨{5}, {5}⟩ ⟨5, none⟩).1 (by decide)

/-- C2: a fresh update identifier is added to the persisted store and
then to the in-memory set, and this happens before any handler runs
(the first two trace events are the store add followed by the memory
add); after the call both copies contain the identifier, for every
handler list — in particular also when every handler raises. -/
theorem claim_c2_mark_before_handlers (commands : List Handler)
    (st : BotState) (u : Update) (h : u.update_id ∉ st.processed) :
    u.update_id ∈ (process_update commands st u).1.processed ∧
    u.update_id ∈ (process_update commands st u).1.redisUpdates ∧
    (process_update commands st u).2.take 2 =
      [Event.storeAdd u.update_id, Event.memAdd u.update_id] := by
  cases hm : u.message <;> simp [process_update, h, hm]

theorem claim_c2_mark_before_handlers_witness :
    7 ∈ (process_update [] ⟨∅, ∅⟩ ⟨7, none⟩).1.processed ∧
    7 ∈ (process_update [] ⟨∅, ∅⟩ ⟨7, none⟩).1.redisUpdates ∧
    (process_update [] ⟨∅, ∅⟩ ⟨7, none⟩).2.take 2 =
      [Event.storeAdd 7, Event.memAdd 7] :=
  claim_c2_mark_before_handlers [] ⟨∅, ∅⟩ ⟨7, none⟩ (by decide)

/-- C3 counterexample: the decorators do not commute on a byte-sequence
result.  On bytes `b"pong"`, applying `reply` first and then `markdown`
yields an envelope with the markdown flag set, while the other order
leaves the bytes untouched by `markdown` (which has no bytes branch) so
`reply` then wraps them without the markdown flag. -/
theorem claim_c3_counterexample :
    deco_markdown (deco_reply (RVal.vBytes "pong")) ≠
      deco_reply (deco_markdown (RVal.vBytes "pong")) := by decide

/-- C3 (amended): the decorators commute on bare-string results and on
envelope (dict) results — each only sets its own flag and normalizes
bare strings without touching flags set earlier — and on the bare
string `"pong"`, `reply` and `markdown` in either order yield the
envelope with answer `"pong"`, `needs_reply` and `markdown` set, and
`needs_preview` absent (read as false by the send path).  Byte-sequence
results are excluded: only `reply` normalizes bytes. -/
theorem claim_c3_decorators_commute_amended :
    (∀ s : String,
      deco_reply (deco_preview (RVal.vStr s)) =
        deco_preview (deco_reply (RVal.vStr s)) ∧
      deco_reply (deco_markdown (RVal.vStr s)) =
        deco_markdown (deco_reply (RVal.vStr s)) ∧
      deco_preview (deco_markdown (RVal.vStr s)) =
        deco_markdown (deco_preview (RVal.vStr s))) ∧
    (∀ d : PyDict,
      deco_reply (deco_preview (RVal.vDict d)) =
        deco_preview (deco_reply (RVal.vDict d)) ∧
      deco_reply (deco_markdown (RVal.vDict d)) =
        deco_markdown (deco_reply (RVal.vDict d)) ∧
      deco_preview (deco_markdown (RVal.vDict d)) =
        deco_markdown (deco_preview (RVal.vDict d))) ∧
    deco_markdown (deco_reply (RVal.vStr "pong")) =
      RVal.vDict ⟨some "pong", some true, none, some true⟩ ∧
    deco_reply (deco_markdown (RVal.vStr "pong")) =
      RVal.vDict ⟨some "pong", some true, none, some true⟩ := by
  refine ⟨fun s => ?_, fun d => ?_, by decide, by decide⟩
  · by_cases hs : s = "" <;>
      simp [deco_reply, deco_preview, deco_markdown, truthy, hs]
  · obtain ⟨a, nr, np, md⟩ := d
    cases a <;> cases nr <;> cases np <;> cases md <;>
      simp [deco_reply, deco_preview, deco_markdown, truthy]

/-- C4 counterexample: an envelope with `needs_reply = true` but an
empty answer produces no transport call — `__send_message` guards the
send with `if answer:`, so the claimed send does not happen. -/
theorem claim_c4_counterexample :
    (PyDict.mk (some "") (some true) none none).needs_reply.getD false
      = true ∧
    py_send_message (RVal.vDict ⟨some "", some true, none, none⟩)
      sampleMsg = .ok none := ⟨rfl, rfl⟩

/-- C4 (amended): when the envelope's answer is the empty string the
send path performs no transport call at all, whatever the flags — the
send happens only under `if answer:`. -/
theorem claim_c4_empty_answer_no_send (d : PyDict) (message : Msg)
    (h : d.answer = some "") :
    py_send_message (RVal.vDict d) message = .ok none := by
  simp [py_send_message, sendFromDict, h]

theorem claim_c4_empty_answer_no_send_witness :
    py_send_message (RVal.vDict ⟨some "", some true, none, none⟩)
      sampleMsg = .ok none :=
  claim_c4_empty_answer_no_send ⟨some "", some true, none, none⟩
    sampleMsg rfl

/-- C5: with exact parameter count required, a matched invocation form
declaring a non-zero number of parameters that differs from the
(collapsed) supplied token count makes the validator raise a
`ValidationException` whose message names the full invocation form; and
on the `/convert [value] [symbol]` descriptor with arity enforced,
`process` on text `/convert 10` sends that message as the chat
response. -/
theorem claim_c5_arity_validation :
    (∀ (commands : List (String × String)) (text : String) (msg : Msg)
       (cmdtxt argstr full : String),
      slashFindall (commands.map Prod.fst) text = some (cmdtxt, argstr) →
      dictGet (pyLower cmdtxt) commands = some full →
      slashArgsFindall full ≠ [] →
      (slashArgsFindall full).length ≠
        (collapseArgs (slashArgsFindall full) (pysplit argstr)).length →
      validate_slash_command commands true text msg =
        .error ⟨"Wrong number of arguments " ++ full⟩) ∧
    process convertDescr (fun _ _ => .ok .vFalse)
        ⟨some "/convert 10", some 5, 42, none, none, none⟩ =
      .ok (some ⟨42, "Wrong number of arguments /convert [value] [symbol]",
                 none, false, false⟩) := by
  constructor
  · intro commands text msg cmdtxt argstr full h1 h2 h3 h4
    simp [validate_slash_command, h1, h2, h3, h4]
  · rfl

theorem claim_c5_arity_validation_witness :
    validate_slash_command [("convert", "/convert [value] [symbol]")] true
        "/convert 10" sampleMsg =
      .error ⟨"Wrong number of arguments /convert [value] [symbol]"⟩ :=
  claim_c5_arity_validation.1 [("convert", "/convert [value] [symbol]")]
    "/convert 10" sampleMsg "convert" "10" "/convert [value] [symbol]"
    (by decide) (by decide) (by decide) (by decide)

/-- C6: when the matched invocation form declares exactly one parameter
and more than one whitespace token was supplied, all tokens are
rejoined with single spaces into one value; on the `/square [text]`
descriptor, text `/square hello world` matches with
`args = [("text", "hello world")]`. -/
theorem claim_c6_single_param_collapse :
    (∀ (commands : List (String × String)) (required_params : Bool)
       (text : String) (msg : Msg) (cmdtxt argstr full p : String),
      slashFindall (commands.map Prod.fst) text = some (cmdtxt, argstr) →
      dictGet (pyLower cmdtxt) commands = some full →
      slashArgsFindall full = [p] →
      (pysplit argstr).length > 1 →
      validate_slash_command commands required_params text msg =
        .ok (true, { msg with
                     args := some [(p, spaceJoin (pysplit argstr))],
                     command := some (pyLower cmdtxt) })) ∧
    can_respond squareDescr "/square hello world" sampleMsg =
      .ok (true, { sampleMsg with
                   args := some [("text", "hello world")],
                   command := some "square" }) := by
  constructor
  · intro commands required_params text msg cmdtxt argstr full p h1 h2 h3 h4
    simp [validate_slash_command, h1, h2, h3, h4, collapseArgs,
          pyDictOf, dictInsert]
  · rfl

theorem claim_c6_single_param_collapse_witness :
    validate_slash_command [("square", "/square [text]")] false
        "/square hello world" sampleMsg =
      .ok (true, { sampleMsg with
                   args := some [("text", "hello world")],
                   command := some "square" }) :=
  claim_c6_single_param_collapse.1 [("square", "/square [text]")] false
    "/square hello world" sampleMsg "square" "hello world"
    "/square [text]" "text" (by decide) (by decide) (by decide) (by decide)

/-- C7: the poll fetch requests offset `max + 1` whenever the processed
set is non-empty, sends no offset when it is empty, and in particular
after processing identifiers 3, 5 and 7 the next fetch requests
offset 8. -/
theorem claim_c7_offset :
    (∀ (processed : Finset Nat) (h : processed.Nonempty),
      get_updates_offset processed = some (processed.max' h + 1)) ∧
    get_updates_offset ∅ = none ∧
    get_updates_offset {3, 5, 7} = some 8 := by
  refine ⟨fun s h => ?_, by simp [get_updates_offset], by decide⟩
  rw [get_updates_offset, dif_pos h]

theorem claim_c7_offset_witness :
    get_updates_offset {3, 5, 7} =
      some (({3, 5, 7} : Finset Nat).max' ⟨3, by decide⟩ + 1) :=
  claim_c7_offset.1 {3, 5, 7} ⟨3, by decide⟩

/-- C8: a regex-mode descriptor evaluates its expression with find-all
semantics and, on a match, stores the first match's group tuple into
the message's `result` field, leaving `command` and `args` untouched;
text `github ou bitbucket?` against the either-or pattern captures
`("github", "bitbucket")` into the result field. -/
theorem claim_c8_regex_mode :
    (∀ (findall : String → List (List String)) (text : String) (msg : Msg)
       (r : List String) (rest : List (List String)),
      findall text = r :: rest →
      validate_regex findall text msg =
        (true, { msg with result := some r })) ∧
    eitherOrFindall "github ou bitbucket?" = [["github", "bitbucket"]] ∧
    can_respond eitherOrDescr "github ou bitbucket?" sampleMsg =
      .ok (true, { sampleMsg with result := some ["github", "bitbucket"] })
    := by
  refine ⟨fun f text msg r rest h => ?_, by decide, rfl⟩
  simp [validate_regex, h]

theorem claim_c8_regex_mode_witness :
    validate_regex eitherOrFindall "github ou bitbucket?" sampleMsg =
      (true, { sampleMsg with result := some ["github", "bitbucket"] }) :=
  claim_c8_regex_mode.1 eitherOrFindall "github ou bitbucket?" sampleMsg
    ["github", "bitbucket"] [] (by decide)

/-- C9: when the default matcher declines a text it returns false with
the message unmutated — `command`, `args` and `result` are exactly as
before the call. -/
theorem claim_c9_decline_no_mutation (d : Descr) (text : String)
    (msg msg2 : Msg) (h : can_respond d text msg = .ok (false, msg2)) :
    msg2 = msg := by
  have hslash : ∀ (commands : List (String × String)) (rp : Bool),
      validate_slash_command commands rp text msg = .ok (false, msg2) →
      msg2 = msg := by
    intro commands rp hv
    unfold validate_slash_command at hv
    cases hsf : slashFindall (commands.map Prod.fst) text with
    | none =>
        rw [hsf] at hv
        simp at hv
        exact hv.symm
    | some pr =>
        obtain ⟨cmdtxt, argstr⟩ := pr
        rw [hsf] at hv
        dsimp only at hv
        cases hd : dictGet (pyLower cmdtxt) commands with
        | none =>
            rw [hd] at hv
            simp at hv
            exact hv.symm
        | some full =>
            rw [hd] at hv
            dsimp only at hv
            split at hv <;> simp at hv
  unfold can_respond at h
  cases hre : d.REGEX with
  | some f =>
      rw [hre] at h
      dsimp only at h
      unfold validate_regex at h
      cases hf : f text with
      | nil =>
          rw [hf] at h
          simp at h
          exact h.symm
      | cons r rest =>
          rw [hf] at h
          simp at h
  | none =>
      rw [hre] at h
      dsimp only at h
      cases hsc : d.SLASH_COMMAND with
      | none =>
          rw [hsc] at h
          simp at h
          exact h.symm
      | some forms =>
          rw [hsc] at h
          dsimp only at h
          by_cases hf : forms = []
          · rw [if_pos hf] at h
            simp at h
            exact h.symm
          · rw [if_neg hf] at h
            exact hslash (mkCommands forms) d.REQUIRED_PARAMS h

theorem claim_c9_decline_no_mutation_witness :
    can_respond pingDescr "hello" sampleMsg = .ok (false, sampleMsg) ∧
    sampleMsg = sampleMsg :=
  ⟨rfl,
   claim_c9_decline_no_mutation pingDescr "hello" sampleMsg sampleMsg rfl⟩

/-- C10: in the default matcher a present regex takes precedence — the
result is exactly that of the regex validation, whatever slash forms
the descriptor declares — and a descriptor defining neither a regex nor
slash forms declines every text. -/
theorem claim_c10_regex_precedence :
    (∀ (findall : String → List (List String)) (sc : Option (List String))
       (rp : Bool) (text : String) (msg : Msg),
      can_respond ⟨some findall, sc, rp⟩ text msg =
        .ok (validate_regex findall text msg)) ∧
    (∀ (rp : Bool) (text : String) (msg : Msg),
      can_respond ⟨none, none, rp⟩ text msg = .ok (false, msg)) :=
  ⟨fun _ _ _ _ _ => rfl, fun _ _ _ => rfl⟩

end Ofensivaria
